import Mathlib

/-!
Verification development for the RainClassroomAssistant image pipeline.

The development shallowly embeds the fetch-and-cache pipeline of
src/Scripts/AsyncDownloader.py and the document assembler / duplicate-run
guard of src/Scripts/PPTManager.py.

Modelling conventions:
* File contents are abstracted as a `Blob` carrying a byte size and a flag
  saying whether PIL can open and verify the file (structural decodability).
* The filesystem relevant to the downloader is a pair of maps from slide
  index to an optional `Blob`: the final path `<index>.jpg` and the
  temporary path `<index>_temp` of each slide.
* Network traffic is an oracle: a stream of `NetResult` values indexed by a
  global counter of issued GET requests; one `session.get` consumes one
  oracle entry.  Transport faults raised by aiohttp are `NetResult.err`.
* `asyncio.gather` over per-slide tasks is linearised: tasks touch only
  their own slide's file pair, so sequential composition is a faithful
  linearisation of the per-slide filesystem effects.  The concurrency gate
  itself (asyncio.Semaphore) is modelled separately as a small labelled
  transition system.
* Instrumentation: the state carries, per slide index, the number of
  download_image invocations and the number of network requests issued, so
  that theorems can speak about re-attempts and about network silence.
* Local disk writes are modelled as reliable; PIL's re-encode
  (`_process_image`'s save) is a parameter `normalize : Blob → Blob`.
-/

namespace RainClass

/-- Abstract content of an on-disk file: byte size plus whether PIL's
`Image.open` + `verify` succeeds on it. -/
structure Blob where
  size : Nat
  decodable : Bool
deriving DecidableEq

/-- Outcome of one `session.get` call: either a raised transport error or a
response with an HTTP status, a declared content type and a body. -/
inductive NetResult where
  | err (msg : String)
  | ok (status : Nat) (contentType : String) (body : Blob)
deriving DecidableEq

/-- One slide record as consumed by the downloader: its ordinal `index`
(determining the cache filename) and its `cover` source URL. -/
structure Slide where
  index : Nat
  cover : String
deriving DecidableEq

/-- Result dictionary returned by `AsyncImageDownloader.download_image`.
The Python dict has keys "success", optional "skipped", optional "error"
and carries the slide itself. -/
structure FetchResult where
  success : Bool
  skipped : Bool
  error : Option String
  slide : Slide
deriving DecidableEq

/-- Configuration of `AsyncImageDownloader` (constructor defaults of the
Python class). `timeout` and `maxConcurrent` do not affect the sequential
semantics but are kept for fidelity. -/
structure DConfig where
  maxConcurrent : Nat := 8
  timeout : Nat := 30
  maxRetries : Nat := 3
  skipExisting : Bool := true

/-- Pipeline state threaded through the embedded downloader: the two
per-index file maps, the global network counter indexing the oracle, and
the two instrumentation counters. -/
structure DState where
  fsFinal : Nat → Option Blob
  fsTemp : Nat → Option Blob
  netCount : Nat
  netCalls : Nat → Nat
  calls : Nat → Nat

/-- Point update of a file map (models one filesystem write or delete). -/
def setF (f : Nat → Option Blob) (i : Nat) (v : Option Blob) : Nat → Option Blob :=
  fun j => if j = i then v else f j

/-- Point increment of a counter map. -/
def bump (f : Nat → Nat) (i : Nat) : Nat → Nat :=
  fun j => if j = i then f j + 1 else f j

/-- Python's `str.startswith`, on the character lists of the strings. -/
def pyStartsWith (s p : String) : Bool :=
  p.data.isPrefixOf s.data

/-- Python's `str.endswith`, on the character lists of the strings. -/
def pyEndsWith (s p : String) : Bool :=
  p.data.isSuffixOf s.data

/-- The validity predicate applied by the downloader to an on-disk file
(`AsyncImageDownloader._is_valid_image` in the no-I/O-error case): the file
exists, has size at least 10 bytes, and decodes. -/
def isValidBlob : Option Blob → Bool
  | none => false
  | some b => decide (10 ≤ b.size) && b.decodable

/-- Outcome of the body of one iteration of the retry loop of
`download_image` (the `try` block, lines 72-102 of AsyncDownloader.py). -/
inductive AttemptOut where
  | success
  | fail (msg : String)
deriving DecidableEq

/-- One fetch attempt for one slide: the `try` block of `download_image`.
Issues one GET, checks status, content type and payload size, writes the
temporary file, decodes and re-encodes to the final path, and removes the
temporary file on success.  Any check failure is the raised exception that
the surrounding `except` receives. -/
def oneAttempt (normalize : Blob → Blob) (oracle : Nat → NetResult)
    (idx : Nat) (st : DState) : AttemptOut × DState :=
  let res := oracle st.netCount
  let st1 : DState :=
    { st with netCount := st.netCount + 1, netCalls := bump st.netCalls idx }
  match res with
  | .err m => (.fail m, st1)
  | .ok status ctype body =>
    if status ≠ 200 then (.fail ("HTTP " ++ toString status), st1)
    else if ¬ pyStartsWith ctype "image/" then (.fail ("not an image: " ++ ctype), st1)
    else if body.size < 10 then (.fail "content too small", st1)
    else
      let st2 : DState := { st1 with fsTemp := setF st1.fsTemp idx (some body) }
      if body.decodable then
        let st3 : DState := { st2 with fsFinal := setF st2.fsFinal idx (some (normalize body)) }
        let st4 : DState := { st3 with fsTemp := setF st3.fsTemp idx none }
        (.success, st4)
      else (.fail "cannot identify image file", st2)

/-- The retry loop of `download_image` (lines 71-117): run attempts until
one succeeds or the budget is exhausted; on the final failed attempt clean
up both the temporary and the final path.  `n = 0` models Python's
`range(0)` falling through the loop and returning `None`. -/
def downloadLoop (normalize : Blob → Blob) (oracle : Nat → NetResult)
    (slide : Slide) : Nat → DState → Option FetchResult × DState
  | 0, st => (none, st)
  | n + 1, st =>
    match oneAttempt normalize oracle slide.index st with
    | (.success, st1) =>
      (some { success := true, skipped := false, error := none, slide := slide }, st1)
    | (.fail m, st1) =>
      if n = 0 then
        let st2 : DState := { st1 with
          fsTemp := setF st1.fsTemp slide.index none,
          fsFinal := setF st1.fsFinal slide.index none }
        (some { success := false, skipped := false, error := some m, slide := slide }, st2)
      else
        downloadLoop normalize oracle slide n st1

/-- `AsyncImageDownloader.download_image` (lines 41-117): reject an empty
URL without touching the network, take the skip-existing fast path when the
final file is already valid, and otherwise run the attempt loop.  The
per-index `calls` counter records each invocation. -/
def download_image (cfg : DConfig) (normalize : Blob → Blob)
    (oracle : Nat → NetResult) (slide : Slide) (st : DState) :
    Option FetchResult × DState :=
  let st0 : DState := { st with calls := bump st.calls slide.index }
  if slide.cover = "" then
    (some { success := false, skipped := false, error := some "empty URL", slide := slide }, st0)
  else if cfg.skipExisting && isValidBlob (st0.fsFinal slide.index) then
    (some { success := true, skipped := true, error := none, slide := slide }, st0)
  else
    downloadLoop normalize oracle slide cfg.maxRetries st0

/-- One entry of the `failed_list` built by `download_slides`: a result
dict (which carries its slide) for a task that returned a failure dict, or
a bare error record for a task whose value was not a result dict. -/
inductive FailedItem where
  | withSlide (r : FetchResult)
  | bare (error : String)
deriving DecidableEq

/-- The statistics dictionary returned by `download_slides` (the wall-clock
`duration` field is omitted from the model). -/
structure BatchResult where
  total : Nat
  successful : Nat
  failed : Nat
  successList : List FetchResult
  failedList : List FailedItem
  skipped : Nat
deriving DecidableEq

/-- Classification of one gathered task value, successful side:
`result.get("success")` truthy. -/
def succSel : Option FetchResult → Option FetchResult
  | none => none
  | some r => if r.success then some r else none

/-- Classification of one gathered task value, failed side.  A `none` task
value (the `max_retries = 0` degenerate loop) is recorded as a bare error
item; in Python this value would in fact crash the statistics loop, and
every theorem below runs with a positive retry budget. -/
def failSel : Option FetchResult → Option FailedItem
  | none => some (.bare "no attempt made")
  | some r => if r.success then none else some (.withSlide r)

/-- Sequential linearisation of the `asyncio.gather` over the per-slide
`download_image` tasks of `download_slides`. -/
def runBatch (cfg : DConfig) (normalize : Blob → Blob) (oracle : Nat → NetResult) :
    List Slide → DState → List (Option FetchResult) × DState
  | [], st => ([], st)
  | s :: rest, st =>
    let (r, st1) := download_image cfg normalize oracle s st
    let (rs, st2) := runBatch cfg normalize oracle rest st1
    (r :: rs, st2)

/-- `AsyncImageDownloader.download_slides` (lines 186-267): apply the
skip-existing pre-filter to the whole batch against the current disk state,
short-circuit when nothing is left to download, otherwise gather all
per-slide downloads and fold the outcomes into the statistics dict. -/
def download_slides (cfg : DConfig) (normalize : Blob → Blob)
    (oracle : Nat → NetResult) (slides : List Slide) (st : DState) :
    BatchResult × DState :=
  let toDownload :=
    if cfg.skipExisting then
      slides.filter (fun s => ¬ isValidBlob (st.fsFinal s.index))
    else slides
  let skippedCount :=
    if cfg.skipExisting then
      slides.countP (fun s => isValidBlob (st.fsFinal s.index))
    else 0
  if toDownload.isEmpty then
    ({ total := slides.length, successful := slides.length, failed := 0,
       successList := [], failedList := [], skipped := skippedCount }, st)
  else
    let (results, st1) := runBatch cfg normalize oracle toDownload st
    let successful := results.filterMap succSel
    let failed := results.filterMap failSel
    ({ total := slides.length,
       successful := successful.length + skippedCount,
       failed := failed.length,
       successList := successful,
       failedList := failed,
       skipped := skippedCount }, st1)

/-- `[item["slide"] for item in failed_list if "slide" in item]`. -/
def extractSlides (l : List FailedItem) : List Slide :=
  l.filterMap (fun it => match it with
    | .withSlide r => some r.slide
    | .bare _ => none)

/-- Final report of `AsyncPPTDownloadManager.download_with_retry`. -/
structure FinalReport where
  total : Nat
  successful : Nat
  failed : Nat
  successList : List FetchResult
deriving DecidableEq

/-- The round loop of `download_with_retry` (lines 356-373).  `roundsLeft`
counts the rounds still available (the Python loop index `attempt` equals
`maxRounds - roundsLeft`); the failed items of a round become the next
round's candidate list when rounds remain.  `external` is an environment
hook: it is applied to the final-path file map where the code sleeps
between rounds, and models writes performed by other processes during the
backoff; `fun _ f => f` is the undisturbed run. -/
def retryGo (cfg : DConfig) (normalize : Blob → Blob) (oracle : Nat → NetResult)
    (external : Nat → (Nat → Option Blob) → (Nat → Option Blob)) :
    Nat → Nat → List Slide → List FetchResult → DState → List FetchResult × DState
  | 0, _, _, acc, st => (acc, st)
  | roundsLeft + 1, roundIdx, remaining, acc, st =>
    if remaining.isEmpty then (acc, st)
    else
      let (res, st1) := download_slides cfg normalize oracle remaining st
      let acc1 := acc ++ res.successList
      if ¬ res.failedList.isEmpty ∧ roundsLeft ≠ 0 then
        let st2 : DState := { st1 with fsFinal := external roundIdx st1.fsFinal }
        retryGo cfg normalize oracle external roundsLeft (roundIdx + 1)
          (extractSlides res.failedList) acc1 st2
      else (acc1, st1)

/-- `AsyncPPTDownloadManager.download_with_retry` (lines 340-380).  The
manager's constructor passes only `max_concurrent` and `skip_existing` to
its `AsyncImageDownloader`, so the per-call retry budget stays at the
downloader default 3 while `maxRounds` defaults to 5. -/
def download_with_retry (cfg : DConfig) (normalize : Blob → Blob)
    (oracle : Nat → NetResult)
    (external : Nat → (Nat → Option Blob) → (Nat → Option Blob))
    (maxRounds : Nat) (slides : List Slide) (st : DState) :
    FinalReport × DState :=
  let (acc, st1) := retryGo cfg normalize oracle external maxRounds 0 slides [] st
  ({ total := slides.length,
     successful := acc.length,
     failed := slides.length - acc.length,
     successList := acc }, st1)

/-!
### The validity check with injected faults

`_is_valid_image` (AsyncDownloader.py lines 149-172) and its twin
`PPTManager.validate_image` wrap three fallible primitives in one
`try/except` that converts every raised error into `False`.  A `FileProbe`
records what each primitive would do for the probed path: return a value or
raise. -/

/-- Which primitive operations a validity query consulted, in order. -/
inductive ProbeStep where
  | qExists
  | qSize
  | qDecode
deriving DecidableEq

instance instDecEqExcept {ε α : Type} [DecidableEq ε] [DecidableEq α] :
    DecidableEq (Except ε α) := fun a b =>
  match a, b with
  | .error e, .error f =>
    if h : e = f then .isTrue (by subst h; rfl)
    else .isFalse (fun hh => h (by cases hh; rfl))
  | .error _, .ok _ => .isFalse (fun hh => by cases hh)
  | .ok _, .error _ => .isFalse (fun hh => by cases hh)
  | .ok x, .ok y =>
    if h : x = y then .isTrue (by subst h; rfl)
    else .isFalse (fun hh => h (by cases hh; rfl))

/-- The behaviour of the three fallible primitives for one path at one
instant: `os.path.exists`, `os.path.getsize`, and `Image.open`+`verify`
(which signals undecodability by raising). -/
structure FileProbe where
  existsR : Except Unit Bool
  sizeR : Except Unit Nat
  decodeR : Except Unit Unit
deriving DecidableEq

/-- The `try` block of `_is_valid_image` with errors propagated: existence
first, then the 10-byte minimum, then the structural decode; a raised
error anywhere aborts the block with that error. -/
def isValidImageRaw (p : FileProbe) : Except Unit Bool :=
  match p.existsR with
  | .error e => .error e
  | .ok ex =>
    if ex = false then .ok false
    else
      match p.sizeR with
      | .error e => .error e
      | .ok n =>
        if n < 10 then .ok false
        else
          match p.decodeR with
          | .error e => .error e
          | .ok _ => .ok true

/-- `_is_valid_image` itself: the `try` block with every raised error
caught and converted to `False`, instrumented with the list of primitives
consulted. -/
def is_valid_image (p : FileProbe) : Bool × List ProbeStep :=
  match p.existsR with
  | .error _ => (false, [.qExists])
  | .ok false => (false, [.qExists])
  | .ok true =>
    match p.sizeR with
    | .error _ => (false, [.qExists, .qSize])
    | .ok n =>
      if n < 10 then (false, [.qExists, .qSize])
      else
        match p.decodeR with
        | .error _ => (false, [.qExists, .qSize, .qDecode])
        | .ok _ => (true, [.qExists, .qSize, .qDecode])

/-- Two consecutive validity queries, each against the probe describing the
disk at its own instant (the function keeps no state between queries). -/
def isValidTwice (p q : FileProbe) : Bool × Bool :=
  ((is_valid_image p).1, (is_valid_image q).1)

/-- The probe of a fault-free filesystem whose file at the path is `o`. -/
def probeOfBlob : Option Blob → FileProbe
  | none => { existsR := .ok false, sizeR := .ok 0, decodeR := .error () }
  | some b =>
    { existsR := .ok true, sizeR := .ok b.size,
      decodeR := if b.decodable then .ok () else .error () }

/-!
### Document assembly (`PPTManager.generate_ppt`) and the duplicate-run
guard (`PPTManager.__init__` / `PPTManager.start`)

Image file contents are abstract tokens (`Content`), and the two hash
functions of the source (`hashlib.md5` over one file, `hashlib.sha256`
over the written manifest `md5.txt`) are opaque function parameters, as is
the answer-overlay `annotate` (the `ImageDraw` block, a collaborator
operation).  Rendering of pages is not observable through any claim and is
not modelled; a document is its filename plus its embedded `/Keywords`
metadata (`none` for a file PyPDF2 cannot read or that has no keywords). -/

/-- Abstract byte content of a cached image file. -/
abbrev Content := Nat

/-- Abstract hash digest value. -/
abbrev Digest := Nat

/-- One slide as seen by the assembler: its index and whether it carries a
`"problem"` entry (an answer overlay owed before assembly). -/
structure PSlide where
  index : Nat
  hasProblem : Bool
deriving DecidableEq

/-- One file of a document directory: its filename and, when PyPDF2 can
read it, its `/Keywords` metadata. -/
structure Doc where
  name : String
  keywords : Option Digest
deriving DecidableEq

/-- State touched by `generate_ppt`: the image cache directory (indexed by
slide index), the lesson download directory, and the legacy top-level
download directory. -/
structure AsmState where
  images : Nat → Option Content
  lessonDocs : List Doc
  downloadDocs : List Doc

/-- Point write of an image file. -/
def setC (f : Nat → Option Content) (i : Nat) (v : Content) : Nat → Option Content :=
  fun j => if j = i then some v else f j

/-- The first loop of `generate_ppt` (PPTManager.py lines 229-255): per
slide, skip a missing image file, otherwise append the file's md5 to the
manifest and, when the slide has a problem, burn the answers onto the
image in place.  The md5 is taken before the overlay is applied. -/
def asmLoop (md5fn : Content → Digest) (annotate : Nat → Content → Content) :
    List PSlide → (Nat → Option Content) → List Digest →
    List Digest × (Nat → Option Content)
  | [], imgs, acc => (acc, imgs)
  | sl :: rest, imgs, acc =>
    match imgs sl.index with
    | none => asmLoop md5fn annotate rest imgs acc
    | some c =>
      let acc1 := acc ++ [md5fn c]
      let imgs1 :=
        if sl.hasProblem then setC imgs sl.index (annotate sl.index c) else imgs
      asmLoop md5fn annotate rest imgs1 acc1

/-- `PPTManager.generate_ppt` (lines 227-294): compute the manifest of
per-asset digests and its sha256 fingerprint, move a legacy same-named
document from the top-level download directory into the lesson directory,
return the name of any existing lesson document whose `/Keywords` equals
the fingerprint, and otherwise create a fresh document stamped with the
fingerprint, appending the timestamp suffix when the canonical name is
already taken. -/
def generate_ppt (md5fn : Content → Digest) (sha256fn : List Digest → Digest)
    (annotate : Nat → Content → Content) (title timeinfo : String)
    (slides : List PSlide) (st : AsmState) : String × AsmState :=
  let pdfName := title ++ ".pdf"
  let (md5s, imgs1) := asmLoop md5fn annotate slides st.images []
  let fp := sha256fn md5s
  let moved : List Doc × List Doc :=
    match st.downloadDocs.find? (fun d => d.name == pdfName) with
    | some d => ((st.lessonDocs.filter (fun e => e.name != pdfName)) ++ [d],
                 st.downloadDocs.filter (fun e => e.name != pdfName))
    | none => (st.lessonDocs, st.downloadDocs)
  let docsL := moved.1
  let docsD := moved.2
  match docsL.find? (fun d => pyEndsWith d.name ".pdf" && d.keywords == some fp) with
  | some d => (d.name, { images := imgs1, lessonDocs := docsL, downloadDocs := docsD })
  | none =>
    let outName :=
      if docsL.any (fun d => d.name == pdfName) then title ++ timeinfo ++ ".pdf"
      else pdfName
    (outName,
     { images := imgs1,
       lessonDocs := docsL ++ [{ name := outName, keywords := some fp }],
       downloadDocs := docsD })

/-- The CollectionFingerprint as the spec words it: the sha256 digest of
the ordered sequence of per-asset content digests of the cached files. -/
def fingerprintOf (md5fn : Content → Digest) (sha256fn : List Digest → Digest)
    (slides : List PSlide) (imgs : Nat → Option Content) : Digest :=
  sha256fn (slides.filterMap (fun sl => (imgs sl.index).map md5fn))

/-- The character class of `PPTManager.validateTitle`'s regex. -/
def isBadTitleChar (c : Char) : Bool :=
  c == '/' || c == '\\' || c == ':' || c == '*' || c == '?' || c == '"' ||
  c == '<' || c == '>' || c == '|'

/-- `PPTManager.validateTitle`: replace every filesystem-hostile character
by an underscore. -/
def validateTitle (t : String) : String :=
  String.mk (t.data.map (fun c => if isBadTitleChar c then '_' else c))

/-- Python's `str.strip()`: drop whitespace from both ends. -/
def pyStrip (s : String) : String :=
  String.mk ((((s.data.dropWhile Char.isWhitespace).reverse).dropWhile
    Char.isWhitespace).reverse)

/-- The `title_dict` manipulation of `PPTManager.__init__` (lines 23-26):
sanitise and strip the raw title, then insert it into the process-wide
dict when absent.  Returns the new dict and the sanitised title. -/
def pm_init (dict : List String) (rawTitle : String) : List String × String :=
  let t := pyStrip (validateTitle rawTitle)
  (if t ∈ dict then dict else t :: dict, t)

/-- `PPTManager.start` (lines 305-315): bail out with `(None, None)` when
the title is no longer in `title_dict`; otherwise download, assemble,
remove the title from the dict and return the document name and elapsed
time.  `downloadFx` stands for the effect of `self.download()` on the image
cache, `usetime` for the measured wall-clock time, and the final `Bool`
flag records whether the download/assembly pipeline ran. -/
def pm_start (md5fn : Content → Digest) (sha256fn : List Digest → Digest)
    (annotate : Nat → Content → Content) (downloadFx : AsmState → AsmState)
    (title timeinfo : String) (slides : List PSlide) (usetime : Nat)
    (dict : List String) (st : AsmState) :
    (Option String × Option Nat) × List String × AsmState × Bool :=
  if title ∈ dict then
    let st1 := downloadFx st
    let (name, st2) := generate_ppt md5fn sha256fn annotate title timeinfo slides st1
    ((some name, some usetime), (dict.filter (fun t => t != title), st2, true))
  else
    ((none, none), (dict, st, false))

/-!
### The admission gate (`asyncio.Semaphore(max_concurrent)`)

`download_image` executes its whole body, network phase included, under
`async with self.semaphore` (AsyncDownloader.py lines 39 and 56).  The
gate is modelled as a labelled transition system over the phases of the
per-slide tasks: a task acquires the semaphore (possible only while the
counter is positive), performs its network phase, then finishes and
releases.  Interleaving is arbitrary. -/

/-- Phase of one per-slide task with respect to the admission gate. -/
inductive TPhase where
  | waiting
  | inNet
  | afterNet
  | released
deriving DecidableEq

/-- Number of tasks currently in a given phase. -/
def countPhase (p : TPhase) (l : List TPhase) : Nat :=
  l.countP (fun x => decide (x = p))

/-- Gate state: the semaphore counter plus the phase of every task. -/
structure GateState where
  avail : Nat
  tasks : List TPhase

/-- One scheduler step: a waiting task acquires the semaphore and enters
its network phase, a task's network operation completes, or a task leaves
the `async with` block releasing the semaphore. -/
inductive GateStep : GateState → GateState → Prop where
  | enter (s : GateState) (i : Nat) (h : s.tasks[i]? = some .waiting)
      (ha : 0 < s.avail) :
      GateStep s ⟨s.avail - 1, s.tasks.set i .inNet⟩
  | netDone (s : GateState) (i : Nat) (h : s.tasks[i]? = some .inNet) :
      GateStep s ⟨s.avail, s.tasks.set i .afterNet⟩
  | leave (s : GateState) (i : Nat) (h : s.tasks[i]? = some .afterNet) :
      GateStep s ⟨s.avail + 1, s.tasks.set i .released⟩

/-- Initial gate state of a batch of `n` tasks under
`asyncio.Semaphore(c)`. -/
def gateInit (c n : Nat) : GateState :=
  ⟨c, List.replicate n .waiting⟩

/-- States the scheduler can reach from the initial batch state. -/
def GateReachable (c n : Nat) (s : GateState) : Prop :=
  Relation.ReflTransGen GateStep (gateInit c n) s

/-- The conserved quantity of the gate: tasks holding the semaphore plus
the free counter always equal the configured capacity. -/
def gateInv (c : Nat) (s : GateState) : Prop :=
  countPhase .inNet s.tasks + countPhase .afterNet s.tasks + s.avail = c

/-!
### Concrete fixtures used by witnesses and counterexamples
-/

/-- Fresh pipeline state: empty cache, no traffic yet. -/
def emptySt : DState := ⟨fun _ => none, fun _ => none, 0, fun _ => 0, fun _ => 0⟩

/-- An upstream that always serves a healthy 100-byte image. -/
def goodOracle : Nat → NetResult := fun _ => .ok 200 "image/jpeg" ⟨100, true⟩

/-- An upstream where every request raises a transport error. -/
def errOracle : Nat → NetResult := fun _ => .err "timeout"

/-- An upstream serving well-typed bytes that PIL cannot decode. -/
def undecOracle : Nat → NetResult := fun _ => .ok 200 "image/png" ⟨100, false⟩

/-- Environment hook: another process writes a valid file for slide 1
during every inter-round backoff. -/
def validWrite : Nat → (Nat → Option Blob) → (Nat → Option Blob) :=
  fun _ f => setF f 1 (some ⟨100, true⟩)

/-- Environment hook of an undisturbed run. -/
def noExternal : Nat → (Nat → Option Blob) → (Nat → Option Blob) :=
  fun _ f => f

/-- Pipeline state whose cache already holds a valid file for slide 1. -/
def cacheSt1 : DState :=
  { emptySt with fsFinal := setF emptySt.fsFinal 1 (some ⟨100, true⟩) }

/-- Assembler state with cached images for slides 0-2 and no documents. -/
def asmSt2 : AsmState := ⟨fun i => if i ≤ 2 then some (10 + i) else none, [], []⟩

/-- A failing-state fixture: an undersized (hence invalid) file already
sits at slide 1's final path. -/
def invalidSt1 : DState :=
  { emptySt with fsFinal := setF emptySt.fsFinal 1 (some ⟨5, true⟩) }

/-- The downloader configuration induced by `AsyncPPTDownloadManager`'s
constructor defaults: the manager forwards `max_concurrent` and
`skip_existing` but not its own retry budget, so the per-call budget stays
at the downloader default 3. -/
def managerCfg : DConfig := ⟨8, 30, 3, true⟩

/-- The manager configuration with `skip_existing=False`. -/
def managerCfgNoSkip : DConfig := ⟨8, 30, 3, false⟩

/-!
## Theorems

### C6 — the validity check fails closed, in order, uncached
-/

/-- The flow model's validity test coincides with the probe model on a
fault-free filesystem. -/
theorem isValidBlob_probe (o : Option Blob) :
    isValidBlob o = (is_valid_image (probeOfBlob o)).1 := by
  cases o with
  | none => rfl
  | some b =>
    by_cases hs : b.size < 10
    · have h10 : ¬ (10 ≤ b.size) := by omega
      cases hb : b.decodable <;>
        simp [isValidBlob, is_valid_image, probeOfBlob, hs, hb, h10]
    · have h10 : 10 ≤ b.size := by omega
      cases hb : b.decodable <;>
        simp [isValidBlob, is_valid_image, probeOfBlob, hs, hb, h10]

/-- C6: the cache validity check returns a boolean and never raises — it
agrees with the fallible check body when that body returns, and yields
`false` whenever the body would raise (fails closed); it consults
existence first, then the byte-size threshold, then the structural decode,
stopping early at the first disqualifier; a decode failure yields the same
verdict as absence; and a second query is a function of the disk state at
the second query alone (nothing is cached between queries). -/
theorem validity_check_fails_closed (p : FileProbe) :
    ((isValidImageRaw p = .error () → (is_valid_image p).1 = false) ∧
     (∀ b, isValidImageRaw p = .ok b → (is_valid_image p).1 = b)) ∧
    ((p.existsR = .error () ∨ p.existsR = .ok false) →
      (is_valid_image p).2 = [.qExists]) ∧
    (p.existsR = .ok true → p.sizeR = .error () →
      (is_valid_image p).2 = [.qExists, .qSize]) ∧
    (∀ n, p.existsR = .ok true → p.sizeR = .ok n → n < 10 →
      (is_valid_image p).2 = [.qExists, .qSize]) ∧
    (p.decodeR = .error () →
      (is_valid_image p).1 = (is_valid_image (probeOfBlob none)).1) ∧
    (∀ q, (isValidTwice p q).2 = (is_valid_image q).1) := by
  obtain ⟨er, sr, dr⟩ := p
  refine ⟨⟨?_, ?_⟩, ?_, ?_, ?_, ?_, fun q => rfl⟩
  · intro h
    rcases er with u | ex
    · cases u; rfl
    · cases ex
      · exact absurd h (by simp [isValidImageRaw])
      · rcases sr with u | n
        · cases u; rfl
        · by_cases hn : n < 10
          · exact absurd h (by simp [isValidImageRaw, hn])
          · rcases dr with u | u <;> cases u
            · simp [is_valid_image, hn]
            · exact absurd h (by simp [isValidImageRaw, hn])
  · intro b h
    rcases er with u | ex
    · cases u; exact absurd h (by simp [isValidImageRaw])
    · cases ex
      · simp [isValidImageRaw] at h
        simp [is_valid_image, h.symm]
      · rcases sr with u | n
        · cases u; exact absurd h (by simp [isValidImageRaw])
        · by_cases hn : n < 10
          · simp [isValidImageRaw, hn] at h
            simp [is_valid_image, hn, h.symm]
          · rcases dr with u | u <;> cases u
            · exact absurd h (by simp [isValidImageRaw, hn])
            · simp [isValidImageRaw, hn] at h
              simp [is_valid_image, hn, h.symm]
  · intro h
    rcases h with h | h <;> subst h <;> rfl
  · intro h1 h2
    subst h1; subst h2; rfl
  · intro n h1 h2 h3
    subst h1; subst h2
    simp [is_valid_image, h3]
  · intro h
    subst h
    rcases er with u | ex
    · cases u; rfl
    · cases ex
      · rfl
      · rcases sr with u | n
        · cases u; rfl
        · by_cases hn : n < 10 <;> simp [is_valid_image, probeOfBlob, hn]

/-- C6 witness: a file that exists with 20 bytes but fails the structural
decode is judged invalid, by the fails-closed clause at a concrete probe. -/
theorem validity_check_fails_closed_witness :
    (is_valid_image ⟨.ok true, .ok 20, .error ()⟩).1 = false :=
  (validity_check_fails_closed ⟨.ok true, .ok 20, .error ()⟩).1.1 (by decide)

/-!
### C9 — the admission gate bounds in-flight network operations
-/

/-- Replacing one known element of a task list shifts a phase count by the
difference of the indicator values of the old and new elements. -/
theorem countPhase_set (l : List TPhase) (i : Nat) (a b p : TPhase)
    (h : l[i]? = some a) :
    countPhase p (l.set i b) + (if a = p then 1 else 0)
      = countPhase p l + (if b = p then 1 else 0) := by
  induction l generalizing i with
  | nil => simp at h
  | cons x xs ih =>
    cases i with
    | zero =>
      simp at h
      subst h
      simp [countPhase, List.countP_cons]
      by_cases hxp : x = p <;> by_cases hbp : b = p <;> simp [hxp, hbp] <;> omega
    | succ k =>
      simp at h
      have hrec := ih k h
      simp [countPhase, List.countP_cons] at hrec ⊢
      by_cases hxp : x = p <;> simp [hxp] at hrec ⊢ <;> omega

/-- No task of the initial batch is in a post-waiting phase. -/
theorem countPhase_replicate_waiting (n : Nat) (p : TPhase)
    (hp : p ≠ .waiting) :
    countPhase p (List.replicate n .waiting) = 0 := by
  induction n with
  | zero => rfl
  | succ k ih =>
    have hw : (decide (TPhase.waiting = p)) = false := by
      cases p <;> simp_all
    simp [countPhase, List.replicate, List.countP_cons, hw] at ih ⊢
    exact ih

/-- Every scheduler step preserves the gate's conservation invariant. -/
theorem gateInv_step {c : Nat} {s s' : GateState} (hs : gateInv c s)
    (h : GateStep s s') : gateInv c s' := by
  cases h with
  | enter i hi ha =>
    unfold gateInv at hs ⊢
    have h1 := countPhase_set s.tasks i .waiting .inNet .inNet hi
    have h2 := countPhase_set s.tasks i .waiting .inNet .afterNet hi
    simp at h1 h2
    dsimp only
    omega
  | netDone i hi =>
    unfold gateInv at hs ⊢
    have h1 := countPhase_set s.tasks i .inNet .afterNet .inNet hi
    have h2 := countPhase_set s.tasks i .inNet .afterNet .afterNet hi
    simp at h1 h2
    dsimp only
    omega
  | leave i hi =>
    unfold gateInv at hs ⊢
    have h1 := countPhase_set s.tasks i .afterNet .released .inNet hi
    have h2 := countPhase_set s.tasks i .afterNet .released .afterNet hi
    simp at h1 h2
    dsimp only
    omega

/-- The conservation invariant holds in every reachable gate state. -/
theorem gateInv_reachable {c n : Nat} {s : GateState}
    (h : GateReachable c n s) : gateInv c s := by
  unfold GateReachable at h
  induction h with
  | refl =>
    unfold gateInv gateInit
    simp [countPhase_replicate_waiting]
  | tail _ hstep ih => exact gateInv_step ih hstep

/-- C9: with the downloader's semaphore sized `cfg.maxConcurrent`, no
reachable interleaving of a batch of `n` fetch tasks ever has more than
`cfg.maxConcurrent` network operations in flight — the gate bounds
concurrent in-flight fetches while any number of tasks may wait. -/
theorem concurrency_bound (cfg : DConfig) (n : Nat) (s : GateState)
    (h : GateReachable cfg.maxConcurrent n s) :
    countPhase .inNet s.tasks ≤ cfg.maxConcurrent := by
  have hinv := gateInv_reachable h
  unfold gateInv at hinv
  omega

/-- C9 witness: after one task of a three-task batch acquires the default
eight-slot semaphore and starts its network phase, the bound holds in the
reached state. -/
theorem concurrency_bound_witness :
    countPhase TPhase.inNet [TPhase.inNet, TPhase.waiting, TPhase.waiting] ≤ 8 :=
  concurrency_bound ⟨8, 30, 3, true⟩ 3 ⟨7, [.inNet, .waiting, .waiting]⟩
    (Relation.ReflTransGen.single
      (GateStep.enter (gateInit 8 3) 0 (by decide) (by decide)))

/-!
### Downloader preservation lemmas
-/

/-- One attempt never touches the invocation counter. -/
theorem oneAttempt_calls (nrm : Blob → Blob) (orc : Nat → NetResult)
    (idx : Nat) (st : DState) :
    (oneAttempt nrm orc idx st).2.calls = st.calls := by
  unfold oneAttempt
  cases orc st.netCount with
  | err m => rfl
  | ok status ctype body =>
    dsimp only
    split_ifs <;> rfl

/-- One attempt touches only its own slide's files and counters. -/
theorem oneAttempt_other (nrm : Blob → Blob) (orc : Nat → NetResult)
    (idx : Nat) (st : DState) (j : Nat) (h : j ≠ idx) :
    (oneAttempt nrm orc idx st).2.fsFinal j = st.fsFinal j ∧
    (oneAttempt nrm orc idx st).2.fsTemp j = st.fsTemp j ∧
    (oneAttempt nrm orc idx st).2.netCalls j = st.netCalls j := by
  unfold oneAttempt
  cases orc st.netCount with
  | err m => exact ⟨rfl, rfl, by simp [bump, h]⟩
  | ok status ctype body =>
    dsimp only
    split_ifs <;>
      exact ⟨by simp [setF, h], by simp [setF, h], by simp [bump, h]⟩

/-- The attempt loop never touches the invocation counter. -/
theorem downloadLoop_calls (nrm : Blob → Blob) (orc : Nat → NetResult)
    (s : Slide) : ∀ (n : Nat) (st : DState),
    (downloadLoop nrm orc s n st).2.calls = st.calls := by
  intro n
  induction n with
  | zero => intro st; rfl
  | succ k ih =>
    intro st
    simp only [downloadLoop]
    rcases ha : oneAttempt nrm orc s.index st with ⟨out, st1⟩
    have hc : st1.calls = st.calls := by
      have := oneAttempt_calls nrm orc s.index st
      rw [ha] at this; exact this
    cases out with
    | success => simpa using hc
    | fail m =>
      by_cases hk : k = 0
      · simp [hk, hc]
      · simp only [hk, if_false]
        rw [ih st1, hc]

/-- The attempt loop touches only its own slide's files and counters. -/
theorem downloadLoop_other (nrm : Blob → Blob) (orc : Nat → NetResult)
    (s : Slide) (j : Nat) (h : j ≠ s.index) : ∀ (n : Nat) (st : DState),
    (downloadLoop nrm orc s n st).2.fsFinal j = st.fsFinal j ∧
    (downloadLoop nrm orc s n st).2.fsTemp j = st.fsTemp j ∧
    (downloadLoop nrm orc s n st).2.netCalls j = st.netCalls j := by
  intro n
  induction n with
  | zero => intro st; exact ⟨rfl, rfl, rfl⟩
  | succ k ih =>
    intro st
    simp only [downloadLoop]
    rcases ha : oneAttempt nrm orc s.index st with ⟨out, st1⟩
    have h1 := oneAttempt_other nrm orc s.index st j h
    rw [ha] at h1
    dsimp only at h1
    cases out with
    | success => simpa using h1
    | fail m =>
      by_cases hk : k = 0
      · simp only [hk, if_true]
        exact ⟨by simp [setF, h, h1.1], by simp [setF, h, h1.2.1], h1.2.2⟩
      · simp only [hk, if_false]
        have h2 := ih st1
        exact ⟨h2.1.trans h1.1, h2.2.1.trans h1.2.1, h2.2.2.trans h1.2.2⟩

/-- A positive retry budget always yields a result dictionary (never the
`None` of an empty `range`). -/
theorem downloadLoop_isSome (nrm : Blob → Blob) (orc : Nat → NetResult)
    (s : Slide) : ∀ (n : Nat) (st : DState), 1 ≤ n →
    ((downloadLoop nrm orc s n st).1).isSome = true := by
  intro n
  induction n with
  | zero => intro st h; omega
  | succ k ih =>
    intro st _
    simp only [downloadLoop]
    rcases ha : oneAttempt nrm orc s.index st with ⟨out, st1⟩
    cases out with
    | success => simp
    | fail m =>
      by_cases hk : k = 0
      · simp [hk]
      · simp only [hk, if_false]
        exact ih st1 (by omega)

/-- Once the attempt loop actually runs, the slide's temporary path is
clear when the loop returns, on success and on final failure alike. -/
theorem downloadLoop_temp_clean (nrm : Blob → Blob) (orc : Nat → NetResult)
    (s : Slide) : ∀ (n : Nat) (st : DState), 1 ≤ n →
    (downloadLoop nrm orc s n st).2.fsTemp s.index = none := by
  intro n
  induction n with
  | zero => intro st h; omega
  | succ k ih =>
    intro st _
    simp only [downloadLoop]
    rcases ha : oneAttempt nrm orc s.index st with ⟨out, st1⟩
    cases out with
    | success =>
      have : st1.fsTemp s.index = none := by
        have hh : (oneAttempt nrm orc s.index st).1 = .success ∧
            (oneAttempt nrm orc s.index st).2 = st1 := by rw [ha]; exact ⟨rfl, rfl⟩
        unfold oneAttempt at hh
        rcases hor : orc st.netCount with m | ⟨status, ctype, body⟩ <;>
          rw [hor] at hh
        · exact absurd hh.1 (by simp)
        · dsimp only at hh
          by_cases h1 : status ≠ 200
          · rw [if_pos h1] at hh; exact absurd hh.1 (by simp)
          · rw [if_neg h1] at hh
            by_cases h2 : ¬ pyStartsWith ctype "image/"
            · rw [if_pos h2] at hh; exact absurd hh.1 (by simp)
            · rw [if_neg h2] at hh
              by_cases h3 : body.size < 10
              · rw [if_pos h3] at hh; exact absurd hh.1 (by simp)
              · rw [if_neg h3] at hh
                by_cases h4 : body.decodable
                · rw [if_pos h4] at hh
                  rw [← hh.2]; simp [setF]
                · rw [if_neg h4] at hh; exact absurd hh.1 (by simp)
      simpa using this
    | fail m =>
      by_cases hk : k = 0
      · simp [hk, setF]
      · simp only [hk, if_false]
        exact ih st1 (by omega)

/-- When the attempt loop reports failure, the cleanup of the final failed
attempt has removed both the temporary and the final path of the slide. -/
theorem downloadLoop_fail_clean (nrm : Blob → Blob) (orc : Nat → NetResult)
    (s : Slide) : ∀ (n : Nat) (st : DState),
    ((downloadLoop nrm orc s n st).1.map FetchResult.success = some false) →
    (downloadLoop nrm orc s n st).2.fsFinal s.index = none ∧
    (downloadLoop nrm orc s n st).2.fsTemp s.index = none := by
  intro n
  induction n with
  | zero => intro st h; simp [downloadLoop] at h
  | succ k ih =>
    intro st h
    simp only [downloadLoop] at h ⊢
    rcases ha : oneAttempt nrm orc s.index st with ⟨out, st1⟩
    rw [ha] at h
    cases out with
    | success => simp at h
    | fail m =>
      by_cases hk : k = 0
      · simp [hk, setF]
      · simp only [hk, if_false] at h ⊢
        exact ih st1 h

/-!
### C7 — fetch is idempotent under skip-existing
-/

/-- C7: once a fetch call has succeeded and left a valid cache entry at
the slide's final path, a second fetch call on the same slide with
skip-existing enabled takes the valid-cache fast path: it returns success
with `skipped = true`, issues zero network requests, and leaves the
filesystem untouched.  The fast path is evaluated by every invocation of
`download_image`, so this holds for any later call, not only the second. -/
theorem idempotent_fetch (cfg : DConfig) (nrm : Blob → Blob)
    (orc : Nat → NetResult) (slide : Slide) (st : DState) (r1 : FetchResult)
    (hskip : cfg.skipExisting = true)
    (h1 : (download_image cfg nrm orc slide st).1 = some r1)
    (hs : r1.success = true)
    (hv : isValidBlob ((download_image cfg nrm orc slide st).2.fsFinal slide.index) = true) :
    (download_image cfg nrm orc slide ((download_image cfg nrm orc slide st).2)).1
      = some { success := true, skipped := true, error := none, slide := slide } ∧
    (download_image cfg nrm orc slide ((download_image cfg nrm orc slide st).2)).2.netCount
      = (download_image cfg nrm orc slide st).2.netCount ∧
    (download_image cfg nrm orc slide ((download_image cfg nrm orc slide st).2)).2.netCalls
      = (download_image cfg nrm orc slide st).2.netCalls ∧
    (download_image cfg nrm orc slide ((download_image cfg nrm orc slide st).2)).2.fsFinal
      = (download_image cfg nrm orc slide st).2.fsFinal ∧
    (download_image cfg nrm orc slide ((download_image cfg nrm orc slide st).2)).2.fsTemp
      = (download_image cfg nrm orc slide st).2.fsTemp := by
  have hc : ¬ slide.cover = "" := by
    intro hceq
    unfold download_image at h1
    rw [if_pos hceq] at h1
    dsimp only at h1
    cases h1
    simp at hs
  rcases hd : download_image cfg nrm orc slide st with ⟨or1, st1⟩
  rw [hd] at hv
  dsimp only at hv ⊢
  unfold download_image
  rw [if_neg hc]
  dsimp only
  have hcond : (cfg.skipExisting && isValidBlob (st1.fsFinal slide.index)) = true := by
    rw [hskip, hv]
    rfl
  rw [if_pos hcond]
  exact ⟨rfl, rfl, rfl, rfl, rfl⟩

/-- C7 witness: the fast path fires concretely on the second of two calls
after a genuine download. -/
theorem idempotent_fetch_witness :
    (download_image {} id goodOracle ⟨1, "u"⟩
        ((download_image {} id goodOracle ⟨1, "u"⟩ emptySt).2)).1
      = some { success := true, skipped := true, error := none,
               slide := ⟨1, "u"⟩ } :=
  (idempotent_fetch {} id goodOracle ⟨1, "u"⟩ emptySt
    ⟨true, false, none, ⟨1, "u"⟩⟩ rfl (by decide) rfl (by decide)).1

/-!
### C8 — temporary files and fetch attempts
-/

/-- C8 counterexample: the claim says the temporary path never exists once
a fetch attempt has completed.  But after the first attempt of a call
(served undecodable bytes) completes with a failure, the temporary file is
still on disk — the loop deletes it only on success or on the final
attempt's cleanup, not unconditionally per attempt. -/
theorem temp_file_per_attempt_counterexample :
    (oneAttempt id undecOracle 1 emptySt).1
      = AttemptOut.fail "cannot identify image file" ∧
    (oneAttempt id undecOracle 1 emptySt).2.fsTemp 1 = some ⟨100, false⟩ ∧
    (oneAttempt id undecOracle 1 emptySt).2.fsTemp 1 ≠ none := by
  refine ⟨by decide, by decide, by decide⟩

/-- C8 (amended): the no-orphan-temp guarantee holds at the granularity of
a whole fetch call rather than of each attempt: when a `download_image`
call completes — by empty-URL rejection, by the skip fast path, by success
or by final failure — the slide's temporary path does not exist, provided
it did not exist when the call began (intermediate failed attempts inside
the call may leave it present until the next attempt overwrites or the
final cleanup removes it). -/
theorem temp_file_clean_after_call (cfg : DConfig) (nrm : Blob → Blob)
    (orc : Nat → NetResult) (slide : Slide) (st : DState)
    (h : st.fsTemp slide.index = none) :
    (download_image cfg nrm orc slide st).2.fsTemp slide.index = none := by
  unfold download_image
  by_cases hc : slide.cover = ""
  · rw [if_pos hc]
    exact h
  · rw [if_neg hc]
    dsimp only
    by_cases hcond : (cfg.skipExisting && isValidBlob (st.fsFinal slide.index)) = true
    · rw [if_pos hcond]
      exact h
    · rw [if_neg hcond]
      cases hn : cfg.maxRetries with
      | zero => exact h
      | succ k =>
        exact downloadLoop_temp_clean nrm orc slide (k + 1) _ (by omega)

/-- C8 witness for the amended statement: a call that fails all three
default attempts on undecodable bytes ends with no temporary file. -/
theorem temp_file_clean_after_call_witness :
    (download_image {} id undecOracle ⟨1, "u"⟩ emptySt).2.fsTemp 1 = none :=
  temp_file_clean_after_call {} id undecOracle ⟨1, "u"⟩ emptySt (by decide)

/-!
### C3 — what a failed fetch leaves at the final path
-/

/-- C3 counterexample: the claim says a pre-existing file at the final
path survives a failing attempt unchanged.  But the final-attempt cleanup
(lines 107-109) deletes whatever sits at the final path: starting from a
state with an (undersized, hence not skippable) file at slide 1's final
path, a fetch whose requests all raise ends with the file gone. -/
theorem failed_fetch_deletes_preexisting :
    invalidSt1.fsFinal 1 = some ⟨5, true⟩ ∧
    (download_image {} id errOracle ⟨1, "u"⟩ invalidSt1).1
      = some { success := false, skipped := false, error := some "timeout",
               slide := ⟨1, "u"⟩ } ∧
    (download_image {} id errOracle ⟨1, "u"⟩ invalidSt1).2.fsFinal 1 = none := by
  refine ⟨by decide, by decide, by decide⟩

/-- C3 (amended): a failed fetch call never leaves a file at the final
path.  Either the call was the empty-URL immediate rejection, which leaves
the filesystem untouched, or the final-attempt cleanup removed both the
temporary and the final path — deleting, rather than preserving, any file
that was there before the call. -/
theorem failed_fetch_final_state (cfg : DConfig) (nrm : Blob → Blob)
    (orc : Nat → NetResult) (slide : Slide) (st : DState)
    (hf : (download_image cfg nrm orc slide st).1.map FetchResult.success
      = some false) :
    (slide.cover = "" ∧
      (download_image cfg nrm orc slide st).2.fsFinal slide.index
        = st.fsFinal slide.index ∧
      (download_image cfg nrm orc slide st).2.fsTemp slide.index
        = st.fsTemp slide.index) ∨
    ((download_image cfg nrm orc slide st).2.fsFinal slide.index = none ∧
      (download_image cfg nrm orc slide st).2.fsTemp slide.index = none) := by
  unfold download_image at hf ⊢
  by_cases hc : slide.cover = ""
  · rw [if_pos hc] at hf ⊢
    exact Or.inl ⟨hc, rfl, rfl⟩
  · rw [if_neg hc] at hf ⊢
    dsimp only at hf ⊢
    by_cases hcond : (cfg.skipExisting && isValidBlob (st.fsFinal slide.index)) = true
    · rw [if_pos hcond] at hf
      simp at hf
    · rw [if_neg hcond] at hf ⊢
      exact Or.inr (downloadLoop_fail_clean nrm orc slide cfg.maxRetries _ hf)

/-- C3 witness for the amended statement: a run of transport failures on
an initially empty cache ends with nothing at the final path. -/
theorem failed_fetch_final_state_witness :
    ((⟨1, "u"⟩ : Slide).cover = "" ∧
      (download_image {} id errOracle ⟨1, "u"⟩ emptySt).2.fsFinal 1
        = emptySt.fsFinal 1 ∧
      (download_image {} id errOracle ⟨1, "u"⟩ emptySt).2.fsTemp 1
        = emptySt.fsTemp 1) ∨
    ((download_image {} id errOracle ⟨1, "u"⟩ emptySt).2.fsFinal 1 = none ∧
      (download_image {} id errOracle ⟨1, "u"⟩ emptySt).2.fsTemp 1 = none) :=
  failed_fetch_final_state {} id errOracle ⟨1, "u"⟩ emptySt (by decide)

/-!
### C2 — empty-source assets and the retry rounds
-/

/-- A one-slide round over an empty-URL, not-cached slide: the pre-filter
keeps the slide, its fetch is rejected before any network traffic, and the
round reports it failed. -/
theorem download_slides_empty_cover (nrm : Blob → Blob) (orc : Nat → NetResult)
    (slide : Slide) (st : DState) (hc : slide.cover = "")
    (hv : isValidBlob (st.fsFinal slide.index) = false) :
    download_slides managerCfg nrm orc [slide] st
      = ({ total := 1, successful := 0, failed := 1,
           successList := [],
           failedList := [.withSlide ⟨false, false, some "empty URL", slide⟩],
           skipped := 0 },
         { st with calls := bump st.calls slide.index }) := by
  simp [download_slides, runBatch, download_image, managerCfg, hc, hv,
    succSel, failSel]

/-- The retry rounds over a single empty-URL slide: every round makes one
more `download_image` invocation, none of them touches the network or the
filesystem, and no round contributes a success. -/
theorem retryGo_empty_cover (nrm : Blob → Blob) (orc : Nat → NetResult)
    (slide : Slide) (hc : slide.cover = "") :
    ∀ (m : Nat), 1 ≤ m →
    ∀ (roundIdx : Nat) (acc : List FetchResult) (st : DState),
    isValidBlob (st.fsFinal slide.index) = false →
    (retryGo managerCfg nrm orc noExternal m roundIdx [slide] acc st).1 = acc ∧
    (retryGo managerCfg nrm orc noExternal m roundIdx [slide] acc st).2.fsFinal
      = st.fsFinal ∧
    (retryGo managerCfg nrm orc noExternal m roundIdx [slide] acc st).2.fsTemp
      = st.fsTemp ∧
    (retryGo managerCfg nrm orc noExternal m roundIdx [slide] acc st).2.netCount
      = st.netCount ∧
    (retryGo managerCfg nrm orc noExternal m roundIdx [slide] acc st).2.netCalls
      = st.netCalls ∧
    (retryGo managerCfg nrm orc noExternal m roundIdx [slide] acc st).2.calls slide.index
      = st.calls slide.index + m := by
  intro m
  induction m with
  | zero => intro h; omega
  | succ k ih =>
    intro _ roundIdx acc st hv
    have hds := download_slides_empty_cover nrm orc slide st hc hv
    simp only [retryGo, List.isEmpty_cons, Bool.false_eq_true, if_false, hds]
    by_cases hk : k = 0
    · subst hk
      simp [bump]
    · have hsel : ¬ False ∧ k ≠ 0 := ⟨not_false, hk⟩
      rw [if_pos hsel]
      dsimp only [noExternal]
      simp only [extractSlides, List.filterMap]
      obtain ⟨a1, a2, a3, a4, a5, a6⟩ :=
        ih (by omega) (roundIdx + 1) (acc ++ [])
          { fsFinal := st.fsFinal, fsTemp := st.fsTemp, netCount := st.netCount,
            netCalls := st.netCalls, calls := bump st.calls slide.index } hv
      refine ⟨?_, ?_, ?_, ?_, ?_, ?_⟩
      · rw [a1]; simp
      · rw [a2]
      · rw [a3]
      · rw [a4]
      · rw [a5]
      · rw [a6]; simp [bump]; omega

/-- C2 counterexample: the claim says an empty-source asset is never
re-attempted after the initial rejection (exactly one non-network
rejection).  In fact the coordinator carries the asset in every round's
failure list: over a five-round run it is attempted five times (its
invocation counter ends at 5, not 1), though indeed with zero network
requests. -/
theorem empty_url_retried_counterexample :
    (download_with_retry managerCfg id errOracle noExternal 5 [⟨2, ""⟩]
      emptySt).2.calls 2 = 5 ∧
    (5 : Nat) ≠ 1 ∧
    (download_with_retry managerCfg id errOracle noExternal 5 [⟨2, ""⟩]
      emptySt).2.netCalls 2 = 0 ∧
    (download_with_retry managerCfg id errOracle noExternal 5 [⟨2, ""⟩]
      emptySt).1.failed = 1 := by
  refine ⟨by decide, by decide, by decide, by decide⟩

/-- C2 (amended): an empty-source asset is rejected immediately with no
network request, but the rejection is not terminal for the rounds: the
coordinator re-attempts the asset once per round (`m` invocations over `m`
rounds), each attempt again failing without network traffic or filesystem
effect, and the asset counts as failed in the final report. -/
theorem empty_url_fetch (nrm : Blob → Blob) (orc : Nat → NetResult)
    (slide : Slide) (st : DState) (m : Nat)
    (hc : slide.cover = "")
    (hv : isValidBlob (st.fsFinal slide.index) = false)
    (hm : 1 ≤ m) :
    (download_with_retry managerCfg nrm orc noExternal m [slide] st).1.successful = 0 ∧
    (download_with_retry managerCfg nrm orc noExternal m [slide] st).1.failed = 1 ∧
    (download_with_retry managerCfg nrm orc noExternal m [slide] st).2.netCount
      = st.netCount ∧
    (download_with_retry managerCfg nrm orc noExternal m [slide] st).2.netCalls
      = st.netCalls ∧
    (download_with_retry managerCfg nrm orc noExternal m [slide] st).2.calls slide.index
      = st.calls slide.index + m := by
  obtain ⟨a1, a2, a3, a4, a5, a6⟩ :=
    retryGo_empty_cover nrm orc slide hc m hm 0 [] st hv
  unfold download_with_retry
  dsimp only
  exact ⟨by rw [a1]; rfl, by rw [a1]; rfl, a4, a5, a6⟩

/-- C2 witness for the amended statement: five rounds over one empty-URL
slide end with five invocations, zero network requests and one failure. -/
theorem empty_url_fetch_witness :
    (download_with_retry managerCfg id errOracle noExternal 5 [⟨7, ""⟩]
      emptySt).1.failed = 1 ∧
    (download_with_retry managerCfg id errOracle noExternal 5 [⟨7, ""⟩]
      emptySt).2.calls 7 = emptySt.calls 7 + 5 :=
  ⟨(empty_url_fetch id errOracle ⟨7, ""⟩ emptySt 5 rfl (by decide) (by decide)).2.1,
   (empty_url_fetch id errOracle ⟨7, ""⟩ emptySt 5 rfl (by decide) (by decide)).2.2.2.2⟩

/-!
### C4 — the shape of a batch report
-/

/-- Classification of gathered outcomes: the success side holds only
success dicts, the failure side only failure outcomes, and each outcome
lands on exactly one side. -/
theorem classify_core (l : List (Option FetchResult)) :
    (∀ r ∈ l.filterMap succSel, r.success = true) ∧
    (∀ r : FetchResult, FailedItem.withSlide r ∈ l.filterMap failSel →
      r.success = false) ∧
    (l.filterMap succSel).length + (l.filterMap failSel).length = l.length := by
  induction l with
  | nil => simp
  | cons o rest ih =>
    obtain ⟨ih1, ih2, ih3⟩ := ih
    rcases o with _ | q
    · have hs : List.filterMap succSel (none :: rest)
          = List.filterMap succSel rest := by
        simp [List.filterMap_cons, succSel]
      have hf : List.filterMap failSel (none :: rest)
          = FailedItem.bare "no attempt made" :: List.filterMap failSel rest := by
        simp [List.filterMap_cons, failSel]
      refine ⟨?_, ?_, ?_⟩
      · intro r hr
        rw [hs] at hr
        exact ih1 r hr
      · intro r hr
        rw [hf] at hr
        rcases List.mem_cons.mp hr with h | h
        · exact absurd h (by simp)
        · exact ih2 r h
      · rw [hs, hf]
        simp only [List.length_cons]
        omega
    · cases hq : q.success with
      | true =>
        have hs : List.filterMap succSel (some q :: rest)
            = q :: List.filterMap succSel rest := by
          simp [List.filterMap_cons, succSel, hq]
        have hf : List.filterMap failSel (some q :: rest)
            = List.filterMap failSel rest := by
          simp [List.filterMap_cons, failSel, hq]
        refine ⟨?_, ?_, ?_⟩
        · intro r hr
          rw [hs] at hr
          rcases List.mem_cons.mp hr with h | h
          · rw [h]; exact hq
          · exact ih1 r h
        · intro r hr
          rw [hf] at hr
          exact ih2 r hr
        · rw [hs, hf]
          simp only [List.length_cons]
          omega
      | false =>
        have hs : List.filterMap succSel (some q :: rest)
            = List.filterMap succSel rest := by
          simp [List.filterMap_cons, succSel, hq]
        have hf : List.filterMap failSel (some q :: rest)
            = FailedItem.withSlide q :: List.filterMap failSel rest := by
          simp [List.filterMap_cons, failSel, hq]
        refine ⟨?_, ?_, ?_⟩
        · intro r hr
          rw [hs] at hr
          exact ih1 r hr
        · intro r hr
          rw [hf] at hr
          rcases List.mem_cons.mp hr with h | h
          · have hrq : r = q := by injection h
            rw [hrq]; exact hq
          · exact ih2 r h
        · rw [hs, hf]
          simp only [List.length_cons]
          omega

/-- The gather produces one outcome slot per dispatched slide. -/
theorem runBatch_length (cfg : DConfig) (nrm : Blob → Blob)
    (orc : Nat → NetResult) : ∀ (slides : List Slide) (st : DState),
    (runBatch cfg nrm orc slides st).1.length = slides.length := by
  intro slides
  induction slides with
  | nil => intro st; rfl
  | cons s rest ih =>
    intro st
    simp only [runBatch]
    rcases h1 : download_image cfg nrm orc s st with ⟨r, st1⟩
    rcases h2 : runBatch cfg nrm orc rest st1 with ⟨rs, st2⟩
    have := ih st1
    rw [h2] at this
    simpa using this

/-- A fetch call leaves every other slide's request counter alone. -/
theorem download_image_netCalls_other (cfg : DConfig) (nrm : Blob → Blob)
    (orc : Nat → NetResult) (s : Slide) (st : DState) (j : Nat)
    (h : j ≠ s.index) :
    (download_image cfg nrm orc s st).2.netCalls j = st.netCalls j := by
  unfold download_image
  by_cases hc : s.cover = ""
  · rw [if_pos hc]
  · rw [if_neg hc]
    dsimp only
    by_cases hcond : (cfg.skipExisting && isValidBlob (st.fsFinal s.index)) = true
    · rw [if_pos hcond]
    · rw [if_neg hcond]
      exact (downloadLoop_other nrm orc s j h cfg.maxRetries _).2.2

/-- A batch over slides that never mention index `j` leaves `j`'s request
counter alone. -/
theorem runBatch_netCalls_other (cfg : DConfig) (nrm : Blob → Blob)
    (orc : Nat → NetResult) (j : Nat) : ∀ (slides : List Slide) (st : DState),
    (∀ s ∈ slides, s.index ≠ j) →
    (runBatch cfg nrm orc slides st).2.netCalls j = st.netCalls j := by
  intro slides
  induction slides with
  | nil => intro st _; rfl
  | cons s rest ih =>
    intro st hall
    simp only [runBatch]
    rcases h1 : download_image cfg nrm orc s st with ⟨r, st1⟩
    rcases h2 : runBatch cfg nrm orc rest st1 with ⟨rs, st2⟩
    have hs : st1.netCalls j = st.netCalls j := by
      have := download_image_netCalls_other cfg nrm orc s st j
        (fun hj => hall s (List.mem_cons_self s rest) hj.symm)
      rw [h1] at this
      exact this
    have hr : st2.netCalls j = st1.netCalls j := by
      have := ih st1 (fun x hx => hall x (List.mem_cons_of_mem s hx))
      rw [h2] at this
      exact this
    exact hr.trans hs

/-- With skip-existing enabled, a batch issues no network request for any
index whose cache entry is valid when the batch starts: the pre-filter
removes every such slide before dispatch. -/
theorem download_slides_netCalls_valid (cfg : DConfig) (nrm : Blob → Blob)
    (orc : Nat → NetResult) (slides : List Slide) (st : DState) (idx : Nat)
    (hskip : cfg.skipExisting = true)
    (hv : isValidBlob (st.fsFinal idx) = true) :
    (download_slides cfg nrm orc slides st).2.netCalls idx
      = st.netCalls idx := by
  unfold download_slides
  rw [hskip]
  have hift : (if (true : Bool) = true
      then slides.filter (fun s => ¬ isValidBlob (st.fsFinal s.index))
      else slides)
      = slides.filter (fun s => ¬ isValidBlob (st.fsFinal s.index)) := rfl
  rw [hift]
  by_cases he : (slides.filter
      (fun s => ¬ isValidBlob (st.fsFinal s.index))).isEmpty = true
  · rw [if_pos he]
  · rw [if_neg he]
    have hpres := runBatch_netCalls_other cfg nrm orc idx
      (slides.filter (fun s => ¬ isValidBlob (st.fsFinal s.index))) st
      (fun s hs hsi => by
        have h3 := (List.mem_filter.mp hs).2
        rw [hsi] at h3
        simp [hv] at h3)
    exact hpres

/-- C4: the batch report's accounting — `successful` counts genuinely
fetched successes plus pre-filter-skipped slides, `failed` counts failure
outcomes, the success and failure lists hold exactly the success and
failure outcomes of the dispatched slides (one outcome per dispatched
slide, so the failure list is the retry input), the skip pre-filter is
evaluated for the whole batch against the state before any fetch, and no
network request is issued for an index whose entry is valid at batch
start. -/
theorem batch_report (cfg : DConfig) (nrm : Blob → Blob)
    (orc : Nat → NetResult) (slides : List Slide) (st : DState) :
    ((download_slides cfg nrm orc slides st).1.successful
      = (download_slides cfg nrm orc slides st).1.successList.length
        + (download_slides cfg nrm orc slides st).1.skipped) ∧
    ((download_slides cfg nrm orc slides st).1.failed
      = (download_slides cfg nrm orc slides st).1.failedList.length) ∧
    (∀ r ∈ (download_slides cfg nrm orc slides st).1.successList,
      r.success = true) ∧
    (∀ r : FetchResult,
      FailedItem.withSlide r ∈ (download_slides cfg nrm orc slides st).1.failedList →
      r.success = false) ∧
    ((download_slides cfg nrm orc slides st).1.successList.length
        + (download_slides cfg nrm orc slides st).1.failedList.length
      = (if cfg.skipExisting
         then slides.filter (fun s => ¬ isValidBlob (st.fsFinal s.index))
         else slides).length) ∧
    (cfg.skipExisting = true →
      (download_slides cfg nrm orc slides st).1.skipped
        = slides.countP (fun s => isValidBlob (st.fsFinal s.index))) ∧
    (∀ idx : Nat, cfg.skipExisting = true →
      isValidBlob (st.fsFinal idx) = true →
      (download_slides cfg nrm orc slides st).2.netCalls idx
        = st.netCalls idx) := by
  have hnet : ∀ idx : Nat, cfg.skipExisting = true →
      isValidBlob (st.fsFinal idx) = true →
      (download_slides cfg nrm orc slides st).2.netCalls idx
        = st.netCalls idx :=
    fun idx h hv => download_slides_netCalls_valid cfg nrm orc slides st idx h hv
  have hmain :
      ((download_slides cfg nrm orc slides st).1.successful
        = (download_slides cfg nrm orc slides st).1.successList.length
          + (download_slides cfg nrm orc slides st).1.skipped) ∧
      ((download_slides cfg nrm orc slides st).1.failed
        = (download_slides cfg nrm orc slides st).1.failedList.length) ∧
      (∀ r ∈ (download_slides cfg nrm orc slides st).1.successList,
        r.success = true) ∧
      (∀ r : FetchResult,
        FailedItem.withSlide r ∈ (download_slides cfg nrm orc slides st).1.failedList →
        r.success = false) ∧
      ((download_slides cfg nrm orc slides st).1.successList.length
          + (download_slides cfg nrm orc slides st).1.failedList.length
        = (if cfg.skipExisting
           then slides.filter (fun s => ¬ isValidBlob (st.fsFinal s.index))
           else slides).length) ∧
      (cfg.skipExisting = true →
        (download_slides cfg nrm orc slides st).1.skipped
          = slides.countP (fun s => isValidBlob (st.fsFinal s.index))) := by
    unfold download_slides
    cases hsk : cfg.skipExisting with
    | false =>
      have hift : (if (false : Bool) = true
          then slides.filter (fun s => ¬ isValidBlob (st.fsFinal s.index))
          else slides) = slides := rfl
      have hifc : (if (false : Bool) = true
          then slides.countP (fun s => isValidBlob (st.fsFinal s.index))
          else 0) = 0 := rfl
      rw [hift, hifc]
      by_cases he : slides.isEmpty = true
      · have hnil : slides = [] := List.isEmpty_iff.mp he
        subst hnil
        simp
      · rw [if_neg he]
        rcases h2 : runBatch cfg nrm orc slides st with ⟨rs, st2⟩
        obtain ⟨k1, k2, k3⟩ := classify_core rs
        have hlen := runBatch_length cfg nrm orc slides st
        rw [h2] at hlen
        simp only at hlen
        refine ⟨rfl, rfl, k1, k2, ?_, ?_⟩
        · rw [← hlen]; exact k3
        · intro h0; cases h0
    | true =>
      have hift : (if (true : Bool) = true
          then slides.filter (fun s => ¬ isValidBlob (st.fsFinal s.index))
          else slides)
          = slides.filter (fun s => ¬ isValidBlob (st.fsFinal s.index)) := rfl
      have hifc : (if (true : Bool) = true
          then slides.countP (fun s => isValidBlob (st.fsFinal s.index))
          else 0)
          = slides.countP (fun s => isValidBlob (st.fsFinal s.index)) := rfl
      rw [hift, hifc]
      by_cases he : (slides.filter
          (fun s => ¬ isValidBlob (st.fsFinal s.index))).isEmpty = true
      · have hnil : slides.filter
            (fun s => ¬ isValidBlob (st.fsFinal s.index)) = [] :=
          List.isEmpty_iff.mp he
        rw [if_pos he]
        have hall : ∀ s ∈ slides, isValidBlob (st.fsFinal s.index) = true := by
          have hfn := List.filter_eq_nil_iff.mp hnil
          intro s hs
          have := hfn s hs
          simpa using this
        have hcnt : slides.countP
            (fun s => isValidBlob (st.fsFinal s.index)) = slides.length := by
          apply List.countP_eq_length.mpr
          intro s hs
          simpa using hall s hs
        refine ⟨by simp [hcnt], rfl, by simp, by simp, ?_, fun _ => rfl⟩
        · rw [hnil]
          simp
      · rw [if_neg he]
        rcases h2 : runBatch cfg nrm orc
            (slides.filter (fun s => ¬ isValidBlob (st.fsFinal s.index))) st
          with ⟨rs, st2⟩
        obtain ⟨k1, k2, k3⟩ := classify_core rs
        have hlen := runBatch_length cfg nrm orc
          (slides.filter (fun s => ¬ isValidBlob (st.fsFinal s.index))) st
        rw [h2] at hlen
        simp only at hlen
        refine ⟨rfl, rfl, k1, k2, ?_, fun _ => rfl⟩
        · rw [← hlen]; exact k3
  obtain ⟨m1, m2, m3, m4, m5, m6⟩ := hmain
  exact ⟨m1, m2, m3, m4, m5, m6, hnet⟩

/-- C4 witness: the spec's scenario — a pre-existing valid file for slide
1, nothing cached for slide 2, skip-existing on.  The round-1 report shows
one pre-filter skip and both slides successful, only slide 2 touched the
network, and slide 1's silence is the theorem's no-refetch clause applied
at index 1. -/
theorem batch_report_witness :
    (download_slides managerCfg id goodOracle [⟨1, "u1"⟩, ⟨2, "u2"⟩]
      cacheSt1).1.skipped = 1 ∧
    (download_slides managerCfg id goodOracle [⟨1, "u1"⟩, ⟨2, "u2"⟩]
      cacheSt1).2.netCalls 1 = cacheSt1.netCalls 1 ∧
    (download_slides managerCfg id goodOracle [⟨1, "u1"⟩, ⟨2, "u2"⟩]
      cacheSt1).2.netCalls 2 = 1 ∧
    (download_slides managerCfg id goodOracle [⟨1, "u1"⟩, ⟨2, "u2"⟩]
      cacheSt1).1.successful = 2 ∧
    (download_slides managerCfg id goodOracle [⟨1, "u1"⟩, ⟨2, "u2"⟩]
      cacheSt1).1.failed = 0 :=
  ⟨by decide,
   (batch_report managerCfg id goodOracle [⟨1, "u1"⟩, ⟨2, "u2"⟩]
     cacheSt1).2.2.2.2.2.2 1 rfl (by decide),
   by decide, by decide, by decide⟩

/-!
### C5 — what re-validates between rounds, and when
-/

/-- C5 counterexample: the claim says the coordinator recomputes the
missing set from disk at each round start and never re-fetches an asset
that is valid on disk.  With `skip_existing=False` the coordinator reuses
the round-1 in-memory failure list unchecked: although another process has
written a valid file for slide 1 during the inter-round backoff (so its
entry is valid when round 2 starts), round 2 issues three more network
requests for it (six in total, not three). -/
theorem coordinator_reuse_counterexample :
    (download_slides managerCfgNoSkip id errOracle [⟨1, "u"⟩]
      emptySt).1.failed = 1 ∧
    isValidBlob ((validWrite 0
      (download_slides managerCfgNoSkip id errOracle [⟨1, "u"⟩]
        emptySt).2.fsFinal) 1) = true ∧
    (download_with_retry managerCfgNoSkip id errOracle validWrite 2 [⟨1, "u"⟩]
      emptySt).2.netCalls 1 = 6 ∧
    (6 : Nat) ≠ 3 := by
  refine ⟨by decide, by decide, by decide, by decide⟩

/-- C5 (amended): the coordinator itself passes the prior round's
in-memory failure list onward; the disk is re-consulted only by the batch
pre-filter, and only when skip-existing is enabled.  Under the manager's
default configuration an asset whose cache entry is valid when a round
starts is not re-fetched in that round (no network request for its index),
and in the two-round interference scenario the run stops at the three
round-1 requests; with skip-existing disabled the same scenario re-fetches
(the counterexample). -/
theorem prefilter_revalidates_rounds (cfg : DConfig) (nrm : Blob → Blob)
    (orc : Nat → NetResult) (slides : List Slide) (st : DState) (idx : Nat)
    (hskip : cfg.skipExisting = true)
    (hv : isValidBlob (st.fsFinal idx) = true) :
    ((download_slides cfg nrm orc slides st).2.netCalls idx
      = st.netCalls idx) ∧
    ((download_with_retry managerCfg id errOracle validWrite 2 [⟨1, "u"⟩]
      emptySt).2.netCalls 1 = 3) :=
  ⟨download_slides_netCalls_valid cfg nrm orc slides st idx hskip hv,
   by decide⟩

/-- C5 witness for the amended statement: a round over slide 3 issues no
request for index 1, whose entry is valid when the round starts. -/
theorem prefilter_revalidates_rounds_witness :
    (download_slides managerCfg id errOracle [⟨3, "u"⟩] cacheSt1).2.netCalls 1
      = cacheSt1.netCalls 1 :=
  (prefilter_revalidates_rounds managerCfg id errOracle [⟨3, "u"⟩] cacheSt1 1
    rfl (by decide)).1

/-!
### C1 — content-addressed, deduplicating document assembly
-/

/-- Both canonical and timestamp-suffixed document names end in ".pdf". -/
theorem pyEndsWith_append (x : String) : pyEndsWith (x ++ ".pdf") ".pdf" = true := by
  unfold pyEndsWith
  rw [List.isSuffixOf_iff_suffix]
  show ".pdf".data <:+ x.data ++ ".pdf".data
  exact List.suffix_append _ _

/-- The manifest built by the assembler's first loop is the ordered list of
per-asset digests of the images as they were when the loop started: the
in-place answer overlays touch only already-digested indices (indices are
pairwise distinct), so they never perturb a later digest. -/
theorem asmLoop_manifest (md5fn : Content → Digest)
    (annotate : Nat → Content → Content) (orig : Nat → Option Content) :
    ∀ (slides : List PSlide) (imgs : Nat → Option Content) (acc : List Digest),
    (∀ sl ∈ slides, imgs sl.index = orig sl.index) →
    List.Pairwise (fun a b => a.index ≠ b.index) slides →
    (asmLoop md5fn annotate slides imgs acc).1
      = acc ++ slides.filterMap (fun sl => (orig sl.index).map md5fn) := by
  intro slides
  induction slides with
  | nil =>
    intro imgs acc _ _
    simp [asmLoop]
  | cons sl rest ih =>
    intro imgs acc hagree hpw
    have hsl : imgs sl.index = orig sl.index :=
      hagree sl (List.mem_cons_self _ _)
    obtain ⟨hhead, hrest⟩ := List.pairwise_cons.mp hpw
    cases ho : orig sl.index with
    | none =>
      have himg : imgs sl.index = none := by rw [hsl, ho]
      simp only [asmLoop, himg]
      rw [ih imgs acc (fun x hx => hagree x (List.mem_cons_of_mem _ hx)) hrest]
      simp [List.filterMap_cons, ho]
    | some c =>
      have himg : imgs sl.index = some c := by rw [hsl, ho]
      simp only [asmLoop, himg]
      have hagree1 : ∀ x ∈ rest,
          (if sl.hasProblem
            then setC imgs sl.index (annotate sl.index c)
            else imgs) x.index = orig x.index := by
        intro x hx
        have hne : ¬ x.index = sl.index := fun h => hhead x hx h.symm
        by_cases hp : sl.hasProblem = true
        · rw [if_pos hp]
          simp only [setC, hne, if_false]
          exact hagree x (List.mem_cons_of_mem _ hx)
        · rw [if_neg hp]
          exact hagree x (List.mem_cons_of_mem _ hx)
      rw [ih _ (acc ++ [md5fn c]) hagree1 hrest]
      simp [List.filterMap_cons, ho]

/-- With every asset cached, the manifest has one digest per slide. -/
theorem manifest_length (md5fn : Content → Digest) (orig : Nat → Option Content) :
    ∀ (slides : List PSlide), (∀ sl ∈ slides, (orig sl.index).isSome = true) →
    (slides.filterMap (fun sl => (orig sl.index).map md5fn)).length
      = slides.length := by
  intro slides
  induction slides with
  | nil => intro _; rfl
  | cons sl rest ih =>
    intro hall
    have h1 : (orig sl.index).isSome = true := hall sl (List.mem_cons_self _ _)
    cases ho : orig sl.index with
    | none => rw [ho] at h1; cases h1
    | some c =>
      simp [List.filterMap_cons, ho,
        ih (fun x hx => hall x (List.mem_cons_of_mem _ hx))]

/-- C1: document assembly is content-addressed and deduplicating.  For a
fully-cached asset set: (i) the manifest is the ordered list of per-asset
content digests (one per slide) and the fingerprint is its sha256 digest;
(ii) if the lesson directory already holds a document whose embedded
keywords equal the fingerprint, that document's name is returned and no
document is created; (iii) otherwise a document stamped with the
fingerprint is created, under the canonical name, or with the timestamp
suffix when a (different-fingerprint) document occupies the canonical name
— the existing documents are never renamed; (iv) a second run over the
bit-identical asset set returns the first run's document name and creates
nothing. -/
theorem assembly_dedup (md5fn : Content → Digest)
    (sha256fn : List Digest → Digest) (annotate : Nat → Content → Content)
    (title timeinfo : String) (slides : List PSlide) (st : AsmState)
    (hD : st.downloadDocs = [])
    (hnd : List.Pairwise (fun a b => a.index ≠ b.index) slides)
    (hAll : ∀ sl ∈ slides, (st.images sl.index).isSome = true) :
    ((asmLoop md5fn annotate slides st.images []).1
      = slides.filterMap (fun sl => (st.images sl.index).map md5fn) ∧
     (asmLoop md5fn annotate slides st.images []).1.length = slides.length) ∧
    (∀ d : Doc,
      st.lessonDocs.find? (fun e => pyEndsWith e.name ".pdf" &&
        e.keywords == some (fingerprintOf md5fn sha256fn slides st.images))
        = some d →
      (generate_ppt md5fn sha256fn annotate title timeinfo slides st).1
        = d.name ∧
      (generate_ppt md5fn sha256fn annotate title timeinfo slides st).2.lessonDocs
        = st.lessonDocs) ∧
    (st.lessonDocs.find? (fun e => pyEndsWith e.name ".pdf" &&
        e.keywords == some (fingerprintOf md5fn sha256fn slides st.images))
        = none →
      (generate_ppt md5fn sha256fn annotate title timeinfo slides st).2.lessonDocs
        = st.lessonDocs ++
          [⟨(generate_ppt md5fn sha256fn annotate title timeinfo slides st).1,
            some (fingerprintOf md5fn sha256fn slides st.images)⟩] ∧
      (st.lessonDocs.any (fun e => e.name == title ++ ".pdf") = true →
        (generate_ppt md5fn sha256fn annotate title timeinfo slides st).1
          = title ++ timeinfo ++ ".pdf") ∧
      (st.lessonDocs.any (fun e => e.name == title ++ ".pdf") = false →
        (generate_ppt md5fn sha256fn annotate title timeinfo slides st).1
          = title ++ ".pdf")) ∧
    ((generate_ppt md5fn sha256fn annotate title timeinfo slides
        ⟨st.images,
         (generate_ppt md5fn sha256fn annotate title timeinfo slides st).2.lessonDocs,
         []⟩).1
      = (generate_ppt md5fn sha256fn annotate title timeinfo slides st).1 ∧
     (generate_ppt md5fn sha256fn annotate title timeinfo slides
        ⟨st.images,
         (generate_ppt md5fn sha256fn annotate title timeinfo slides st).2.lessonDocs,
         []⟩).2.lessonDocs
      = (generate_ppt md5fn sha256fn annotate title timeinfo slides st).2.lessonDocs) := by
  obtain ⟨imgs0, docs0, dd0⟩ := st
  dsimp only at hD hAll ⊢
  subst hD
  have hman : (asmLoop md5fn annotate slides imgs0 []).1
      = slides.filterMap (fun sl => (imgs0 sl.index).map md5fn) := by
    have := asmLoop_manifest md5fn annotate imgs0 slides imgs0 []
      (fun _ _ => rfl) hnd
    simpa using this
  have hgen : ∀ docs : List Doc,
      generate_ppt md5fn sha256fn annotate title timeinfo slides
        ⟨imgs0, docs, []⟩
      = (match docs.find? (fun e => pyEndsWith e.name ".pdf" &&
            e.keywords == some (fingerprintOf md5fn sha256fn slides imgs0)) with
         | some d =>
           (d.name, ⟨(asmLoop md5fn annotate slides imgs0 []).2, docs, []⟩)
         | none =>
           ((if docs.any (fun e => e.name == title ++ ".pdf")
               then title ++ timeinfo ++ ".pdf" else title ++ ".pdf"),
            ⟨(asmLoop md5fn annotate slides imgs0 []).2,
             docs ++
               [⟨(if docs.any (fun e => e.name == title ++ ".pdf")
                   then title ++ timeinfo ++ ".pdf" else title ++ ".pdf"),
                 some (fingerprintOf md5fn sha256fn slides imgs0)⟩],
             []⟩)) := by
    intro docs
    unfold generate_ppt fingerprintOf
    dsimp only
    simp only [List.find?_nil]
    rw [hman]
  refine ⟨⟨hman, ?_⟩, ?_, ?_, ?_⟩
  · rw [hman]
    exact manifest_length md5fn imgs0 slides hAll
  · intro d hfind
    rw [hgen docs0, hfind]
    exact ⟨rfl, rfl⟩
  · intro hfind
    rw [hgen docs0, hfind]
    refine ⟨rfl, ?_, ?_⟩
    · intro hany
      rw [if_pos hany]
    · intro hany
      rw [if_neg (by rw [hany]; exact Bool.false_ne_true)]
  · cases hfd : docs0.find? (fun e => pyEndsWith e.name ".pdf" &&
        e.keywords == some (fingerprintOf md5fn sha256fn slides imgs0)) with
    | some d =>
      rw [hgen docs0, hfd]
      dsimp only
      rw [hgen docs0, hfd]
      exact ⟨rfl, rfl⟩
    | none =>
      rw [hgen docs0, hfd]
      dsimp only
      have hnew : pyEndsWith
          (if docs0.any (fun e => e.name == title ++ ".pdf")
            then title ++ timeinfo ++ ".pdf" else title ++ ".pdf") ".pdf"
          = true := by
        by_cases hany : docs0.any (fun e => e.name == title ++ ".pdf") = true
        · rw [if_pos hany]
          exact pyEndsWith_append (title ++ timeinfo)
        · rw [if_neg hany]
          exact pyEndsWith_append title
      have hfd2 : (docs0 ++
          [(⟨(if docs0.any (fun e => e.name == title ++ ".pdf")
              then title ++ timeinfo ++ ".pdf" else title ++ ".pdf"),
            some (fingerprintOf md5fn sha256fn slides imgs0)⟩ : Doc)]).find?
            (fun e => pyEndsWith e.name ".pdf" &&
              e.keywords == some (fingerprintOf md5fn sha256fn slides imgs0))
          = some ⟨(if docs0.any (fun e => e.name == title ++ ".pdf")
              then title ++ timeinfo ++ ".pdf" else title ++ ".pdf"),
            some (fingerprintOf md5fn sha256fn slides imgs0)⟩ := by
        rw [List.find?_append, hfd, Option.none_or, List.find?_cons_of_pos]
        dsimp only
        rw [hnew]
        simp
      rw [hgen _, hfd2]
      exact ⟨rfl, rfl⟩

/-- C1 witness: with concrete hash parameters and a two-slide cached set,
the second assembly run over the bit-identical asset set returns the first
run's document name (and, by the theorem, creates no second document). -/
theorem assembly_dedup_witness :
    (generate_ppt (fun c => c + 1) List.sum (fun _ c => c + 50) "T" "-x"
        [⟨1, true⟩, ⟨2, false⟩]
        ⟨asmSt2.images,
         (generate_ppt (fun c => c + 1) List.sum (fun _ c => c + 50) "T" "-x"
           [⟨1, true⟩, ⟨2, false⟩] asmSt2).2.lessonDocs, []⟩).1
      = (generate_ppt (fun c => c + 1) List.sum (fun _ c => c + 50) "T" "-x"
          [⟨1, true⟩, ⟨2, false⟩] asmSt2).1 :=
  (assembly_dedup (fun c => c + 1) List.sum (fun _ c => c + 50) "T" "-x"
    [⟨1, true⟩, ⟨2, false⟩] asmSt2 rfl (by decide) (by decide)).2.2.2.1

/-!
### C10 — the duplicate-run guard at the entry point
-/

/-- C10: constructing a manager inserts the sanitised stripped title into
the process-wide dict when absent (and leaves the dict unchanged when
present); `start` with the title absent returns `(None, None)` without
running the download/assembly pipeline and without touching dict or state;
`start` with the title present runs the pipeline, removes the title from
the dict, and returns the document name together with the elapsed time. -/
theorem duplicate_run_guard (md5fn : Content → Digest)
    (sha256fn : List Digest → Digest) (annotate : Nat → Content → Content)
    (downloadFx : AsmState → AsmState) (rawTitle timeinfo : String)
    (slides : List PSlide) (usetime : Nat) (dict : List String) :
    ((pm_init dict rawTitle).2 ∈ (pm_init dict rawTitle).1) ∧
    ((pm_init dict rawTitle).2 ∈ dict → (pm_init dict rawTitle).1 = dict) ∧
    ((pm_init dict rawTitle).2 ∉ dict →
      (pm_init dict rawTitle).1 = (pm_init dict rawTitle).2 :: dict) ∧
    (∀ (d2 : List String) (st2 : AsmState), (pm_init dict rawTitle).2 ∉ d2 →
      pm_start md5fn sha256fn annotate downloadFx (pm_init dict rawTitle).2
        timeinfo slides usetime d2 st2 = ((none, none), (d2, st2, false))) ∧
    (∀ (d2 : List String) (st2 : AsmState), (pm_init dict rawTitle).2 ∈ d2 →
      pm_start md5fn sha256fn annotate downloadFx (pm_init dict rawTitle).2
        timeinfo slides usetime d2 st2
        = ((some (generate_ppt md5fn sha256fn annotate
              (pm_init dict rawTitle).2 timeinfo slides (downloadFx st2)).1,
            some usetime),
           (d2.filter (fun t => t != (pm_init dict rawTitle).2),
            (generate_ppt md5fn sha256fn annotate (pm_init dict rawTitle).2
              timeinfo slides (downloadFx st2)).2, true))) := by
  refine ⟨?_, ?_, ?_, ?_, ?_⟩
  · unfold pm_init
    dsimp only
    by_cases h : pyStrip (validateTitle rawTitle) ∈ dict
    · rw [if_pos h]; exact h
    · rw [if_neg h]; exact List.mem_cons_self _ _
  · intro h
    unfold pm_init at h ⊢
    dsimp only at h ⊢
    rw [if_pos h]
  · intro h
    unfold pm_init at h ⊢
    dsimp only at h ⊢
    rw [if_neg h]
  · intro d2 st2 h
    unfold pm_start
    rw [if_neg h]
  · intro d2 st2 h
    unfold pm_start
    rw [if_pos h]

/-- C10 witness: a fresh construction inserts the sanitised title; after
an equal-titled run has removed it, `start` bails out with `(None, None)`
and does not run the pipeline. -/
theorem duplicate_run_guard_witness :
    pm_start (fun c => c + 1) List.sum (fun _ c => c + 50) id
      (pm_init [] "A/B ").2 "-x" [⟨1, false⟩] 4 [] asmSt2
      = ((none, none), ([], asmSt2, false)) :=
  (duplicate_run_guard (fun c => c + 1) List.sum (fun _ c => c + 50) id
    "A/B " "-x" [⟨1, false⟩] 4 []).2.2.2.1 [] asmSt2 (by simp)

end RainClass
